import Mathlib

/-!
Shallow embedding of `src/sendgrid_ip_logs_parser.py`.

The program validates a spreadsheet path, opens one named sheet, skips the
header row, and groups the access-method cell (column index 3) by the
IP-address cell (column index 0) into an insertion-ordered dictionary
(`defaultdict(list)`), then reports the row count and the distinct IP keys.

Modelling decisions:
- A cell value is `vNone` (Python `None`), `vStr s` (a Python `str`), or
  `vOther` (any present non-string value such as a number): `.strip()`
  succeeds only on strings, so `vOther` raises `AttributeError`.
- A worksheet row is a `List CellValue`; `row[i]` out of range raises
  `IndexError`.
- The insertion-ordered dict is an association list `List (String × List String)`
  whose keys are pairwise distinct by construction, matching CPython dict
  ordering: a new key is appended at the end, an existing key keeps its place
  and its list grows at the end.
- Console printing is abstracted: `validate_file` returns its diagnostics as a
  list of strings, and `ProcessResult` records which of the mutually exclusive
  output shapes of `process_file` occurred.
-/

/-- A Python cell value as seen by `openpyxl`: `None`, a string, or some
present non-string value (number, date, ...). -/
inductive CellValue where
  | vNone : CellValue
  | vStr : String → CellValue
  | vOther : CellValue
deriving DecidableEq, Repr

/-- The Python exceptions the script can raise while reading a sheet. -/
inductive PyError where
  | indexError : PyError
  | attributeError : PyError
  | ioError : PyError
deriving DecidableEq, Repr

/-- A worksheet row as yielded by `worksheet.iter_rows`. -/
abbrev Row := List CellValue

/-- The `self.ip_accesses_dict` state: an insertion-ordered mapping from
IP string to the ordered list of access-method strings. -/
abbrev AccessIndex := List (String × List String)

/-- One named sheet: its title and all its rows (header first). -/
structure Sheet where
  name : String
  rows : List Row
deriving DecidableEq, Repr

/-- A workbook: its sheets in order. -/
structure Workbook where
  sheets : List Sheet
deriving DecidableEq, Repr

/-- `row[i]`: `IndexError` when the index is out of range. -/
def getCell (row : Row) (i : Nat) : Except PyError CellValue :=
  match row[i]? with
  | some c => Except.ok c
  | none => Except.error PyError.indexError

/-- `row[i].value if row[i].value is not None else ""`: the `None` fallback,
applied before any `.strip()`. -/
def noneToEmpty : CellValue → CellValue
  | CellValue.vNone => CellValue.vStr ""
  | c => c

/-- The characters Python `str.strip()` removes by default (the ASCII
whitespace set; further Unicode whitespace is elided from the model). -/
def isPyWhitespace (c : Char) : Bool :=
  c = ' ' || c = '\t' || c = '\n' || c = '\r' || c = '\x0b' || c = '\x0c'

/-- Python `str.strip()` on a string: drop leading and trailing whitespace. -/
def pyTrim (s : String) : String :=
  String.mk (((s.data.dropWhile isPyWhitespace).reverse.dropWhile
    isPyWhitespace).reverse)

/-- Python `.strip()`: defined on strings, `AttributeError` otherwise. -/
def pyStrip : CellValue → Except PyError String
  | CellValue.vStr s => Except.ok (pyTrim s)
  | _ => Except.error PyError.attributeError

/-- `self.ip_accesses_dict[ip].append(m)` on a `defaultdict(list)`:
append `m` to the list at key `ip`, creating `[m]` at the end of the dict on
the first occurrence of the key. -/
def addAccess : AccessIndex → String → String → AccessIndex
  | [], ip, m => [(ip, [m])]
  | (k, ms) :: rest, ip, m =>
    if k = ip then (k, ms ++ [m]) :: rest else (k, ms) :: addAccess rest ip m

/-- The body of the `for` loop of `parse_ip_accesses_logs` on one row, over the
state (rows parsed so far, dict): reads `row[0].value` and `row[3].value` with
the `None` fallback, strips both, then counts the row and appends. -/
def parseRowStep (st : Nat × AccessIndex) (row : Row) :
    Except PyError (Nat × AccessIndex) :=
  match getCell row 0 with
  | Except.error e => Except.error e
  | Except.ok c0 =>
    match getCell row 3 with
    | Except.error e => Except.error e
    | Except.ok c3 =>
      match pyStrip (noneToEmpty c0) with
      | Except.error e => Except.error e
      | Except.ok ip_address =>
        match pyStrip (noneToEmpty c3) with
        | Except.error e => Except.error e
        | Except.ok access_method =>
          Except.ok (st.1 + 1, addAccess st.2 ip_address access_method)

/-- The `for` loop over the remaining rows. On an exception the mutations made
by the earlier iterations persist (the dict is instance state), so the partial
state is returned alongside the raised error. -/
def parseRowsFrom : List Row → Nat × AccessIndex →
    (Nat × AccessIndex) × Option PyError
  | [], st => (st, none)
  | r :: rs, st =>
    match parseRowStep st r with
    | Except.ok st' => parseRowsFrom rs st'
    | Except.error e => (st, some e)

/-- `parse_ip_accesses_logs(worksheet)`: iterates `worksheet.iter_rows(min_row=2)`
(all rows except the first) with `rows_parsed` starting at 0 and the dict in
its incoming state; returns the final `(rows_parsed, dict)` and the raised
exception, if any. -/
def parse_ip_accesses_logs (ws : Sheet) (d : AccessIndex) :
    (Nat × AccessIndex) × Option PyError :=
  parseRowsFrom (ws.rows.drop 1) (0, d)

/-- One aggregation invocation as launched by `process_file`: the dict starts
empty (`defaultdict(list)` freshly constructed per `ExcelParser`). -/
def run_aggregation (ws : Sheet) : (Nat × AccessIndex) × Option PyError :=
  parse_ip_accesses_logs ws []

/-- The allow-list of `validate_file`. -/
def allowedSuffixes : List String := [".xlsx", ".xls", ".xlsm"]

/-- What `validate_file` observes about `self.file_path`. -/
structure FileInfo where
  path : String
  pathExists : Bool
  suffix : String
deriving DecidableEq, Repr

/-- `validate_file`: the verdict together with the diagnostics printed. -/
def validate_file (f : FileInfo) : Bool × List String :=
  if f.pathExists = false then
    (false, ["Error: File " ++ f.path ++ " does not exist"])
  else if f.suffix ∉ allowedSuffixes then
    (false, ["Error: File " ++ f.path ++ " is not an Excel file"])
  else
    (true, [])

/-- The mutually exclusive console outcomes of `process_file`. -/
inductive ProcessResult where
  /-- `sheet_name` was `None` or `""` (falsy): the body under
  `if sheet_name:` is skipped and nothing is printed. -/
  | noOutput : ProcessResult
  /-- the requested sheet is absent: only the not-found diagnostic is
  printed and the method returns. -/
  | sheetNotFound : ProcessResult
  /-- the success path: the row count, the distinct-IP count and the listed
  keys are printed. -/
  | report : Nat → Nat → List String → ProcessResult
  /-- an exception reached the `except` clause: only the
  `Error processing file` diagnostic is printed. -/
  | errorCaught : ProcessResult
deriving DecidableEq, Repr

/-- `workbook[sheet_name]`: the first sheet with that title. The preceding
`sheet_name not in workbook.sheetnames` guard succeeds exactly when this
lookup does. -/
def findSheet (wb : Workbook) (nm : String) : Option Sheet :=
  wb.sheets.find? (fun s => s.name = nm)

/-- `workbook.sheetnames`. -/
def sheetnames (wb : Workbook) : List String :=
  wb.sheets.map Sheet.name

/-- `process_file(sheet_name)`: `load` is the outcome of
`openpyxl.load_workbook`, `d0` the incoming dict state. Returns the console
outcome and the final dict state; every exception is caught by the broad
`except` clause, so this function is total. -/
def process_file (load : Except PyError Workbook) (sheet_name : Option String)
    (d0 : AccessIndex) : ProcessResult × AccessIndex :=
  match load with
  | Except.error _ => (ProcessResult.errorCaught, d0)
  | Except.ok wb =>
    match sheet_name with
    | none => (ProcessResult.noOutput, d0)
    | some nm =>
      if nm = "" then (ProcessResult.noOutput, d0)
      else
        match findSheet wb nm with
        | none => (ProcessResult.sheetNotFound, d0)
        | some ws =>
          match parse_ip_accesses_logs ws d0 with
          | ((n, d), none) =>
            (ProcessResult.report n d.length (d.map Prod.fst), d)
          | ((_, d), some _) => (ProcessResult.errorCaught, d)

/-- `main()` after argument parsing: exits 1 when validation fails, otherwise
processes sheet `"Sheet1"` and exits 0 (the implicit status). The second
component records whether and how `process_file` ran. -/
def main_run (f : FileInfo) (load : Except PyError Workbook) :
    Nat × Option (ProcessResult × AccessIndex) :=
  if (validate_file f).1 then (0, some (process_file load (some "Sheet1") []))
  else (1, none)

/-- A cell position that the loop body can consume without raising: present
and either `None` or a string. -/
def cellOk : Option CellValue → Bool
  | some CellValue.vNone => true
  | some (CellValue.vStr _) => true
  | _ => false

/-- A row both of whose consumed cells are present text-or-empty. -/
def rowOk (row : Row) : Bool :=
  cellOk (row[0]?) && cellOk (row[3]?)

/-- The string the loop derives from a consumed cell: `""` for `None`,
the trimmed text for a string. -/
def trimVal : Option CellValue → String
  | some (CellValue.vStr s) => pyTrim s
  | _ => ""

/-- Sum of the per-key method-list lengths of an `AccessIndex`. -/
def sumLen (d : AccessIndex) : Nat :=
  (d.map (fun p => p.2.length)).sum

/-- The `Sheet1` content of Scenario A of the specification. -/
def scenarioASheet : Sheet :=
  { name := "Sheet1"
    rows :=
      [ [CellValue.vStr "ip", CellValue.vStr "a", CellValue.vStr "b",
         CellValue.vStr "method"],
        [CellValue.vStr "1.2.3.4", CellValue.vStr "", CellValue.vStr "",
         CellValue.vStr "api"],
        [CellValue.vStr "1.2.3.4", CellValue.vStr "", CellValue.vStr "",
         CellValue.vStr "web"],
        [CellValue.vStr "5.6.7.8", CellValue.vStr "", CellValue.vStr "",
         CellValue.vStr "api"] ] }

/-- A data row holding a present non-string value in a consumed column. -/
def badCell (row : Row) : Bool :=
  decide (row[0]? = some CellValue.vOther) ||
    decide (row[3]? = some CellValue.vOther)

/-! ### Helper lemmas -/

lemma pyTrim_empty : pyTrim "" = "" := by decide

lemma addAccess_length (d : AccessIndex) (ip m : String) :
    (addAccess d ip m).length ≤ d.length + 1 := by
  induction d with
  | nil => simp [addAccess]
  | cons p rest ih =>
    obtain ⟨k, ms⟩ := p
    by_cases hk : k = ip
    · simp [addAccess, hk]
    · simp only [addAccess, if_neg hk, List.length_cons]
      omega

lemma addAccess_sumLen (d : AccessIndex) (ip m : String) :
    sumLen (addAccess d ip m) = sumLen d + 1 := by
  induction d with
  | nil => simp [addAccess, sumLen]
  | cons p rest ih =>
    obtain ⟨k, ms⟩ := p
    by_cases hk : k = ip <;> simp [addAccess, hk, sumLen] at * <;> omega

lemma addAccess_keys (d : AccessIndex) (ip m : String) :
    (addAccess d ip m).map Prod.fst =
      if ip ∈ d.map Prod.fst then d.map Prod.fst
      else d.map Prod.fst ++ [ip] := by
  induction d with
  | nil => simp [addAccess]
  | cons p rest ih =>
    obtain ⟨k, ms⟩ := p
    by_cases hk : k = ip
    · simp [addAccess, hk]
    · by_cases hmem : ip ∈ rest.map Prod.fst <;>
        simp [addAccess, hk, ih, hmem, Ne.symm hk]

lemma addAccess_nodup (d : AccessIndex) (ip m : String)
    (h : (d.map Prod.fst).Nodup) : ((addAccess d ip m).map Prod.fst).Nodup := by
  rw [addAccess_keys]
  split
  · exact h
  · next hmem =>
    rw [List.nodup_append]
    refine ⟨h, List.nodup_singleton ip, ?_⟩
    intro a ha hb
    rw [List.mem_singleton] at hb
    subst hb
    exact hmem ha

lemma parseRowStep_ok_shape (st : Nat × AccessIndex) (row : Row)
    (st' : Nat × AccessIndex) (h : parseRowStep st row = Except.ok st') :
    ∃ ip m, st' = (st.1 + 1, addAccess st.2 ip m) := by
  cases hg0 : getCell row 0 with
  | error e => simp [parseRowStep, hg0] at h
  | ok c0 =>
    cases hg3 : getCell row 3 with
    | error e => simp [parseRowStep, hg0, hg3] at h
    | ok c3 =>
      cases hs0 : pyStrip (noneToEmpty c0) with
      | error e => simp [parseRowStep, hg0, hg3, hs0] at h
      | ok ip =>
        cases hs3 : pyStrip (noneToEmpty c3) with
        | error e => simp [parseRowStep, hg0, hg3, hs0, hs3] at h
        | ok m =>
          simp only [parseRowStep, hg0, hg3, hs0, hs3, Except.ok.injEq] at h
          exact ⟨ip, m, h.symm⟩

lemma parseRowStep_ok_of_cellsOk (n : Nat) (d : AccessIndex) (row : Row)
    (h0 : cellOk (row[0]?) = true) (h3 : cellOk (row[3]?) = true) :
    parseRowStep (n, d) row =
      Except.ok (n + 1, addAccess d (trimVal (row[0]?))
        (trimVal (row[3]?))) := by
  cases hg0 : row[0]? with
  | none => rw [hg0] at h0; simp [cellOk] at h0
  | some c0 =>
    cases hg3 : row[3]? with
    | none => rw [hg3] at h3; simp [cellOk] at h3
    | some c3 =>
      rw [hg0] at h0
      rw [hg3] at h3
      cases c0 <;> cases c3 <;>
        simp_all [cellOk, parseRowStep, getCell, noneToEmpty, pyStrip,
          trimVal, pyTrim_empty]

lemma parseRowsFrom_ok_inv : ∀ (rows : List Row) (n : Nat) (d : AccessIndex)
    (n' : Nat) (d' : AccessIndex),
    parseRowsFrom rows (n, d) = ((n', d'), none) →
    n' = n + rows.length ∧ d'.length ≤ d.length + rows.length ∧
      sumLen d' = sumLen d + rows.length ∧
      ((d.map Prod.fst).Nodup → (d'.map Prod.fst).Nodup)
  | [], n, d, n', d', h => by
    simp only [parseRowsFrom, Prod.mk.injEq] at h
    obtain ⟨⟨h1, h2⟩, -⟩ := h
    subst h1
    subst h2
    simp
  | r :: rs, n, d, n', d', h => by
    cases hstep : parseRowStep (n, d) r with
    | error e =>
      simp only [parseRowsFrom, hstep, Prod.mk.injEq] at h
      exact absurd h.2 (by simp)
    | ok st1 =>
      obtain ⟨ip, m, hshape⟩ := parseRowStep_ok_shape (n, d) r st1 hstep
      subst hshape
      simp only [parseRowsFrom, hstep] at h
      obtain ⟨ih1, ih2, ih3, ih4⟩ :=
        parseRowsFrom_ok_inv rs (n + 1) (addAccess d ip m) n' d' h
      have hlen := addAccess_length d ip m
      have hsum := addAccess_sumLen d ip m
      refine ⟨by simp; omega, by simp; omega, ?_, ?_⟩
      · simp only [List.length_cons]
        omega
      · exact fun hnd => ih4 (addAccess_nodup d ip m hnd)

lemma parseRowsFrom_allOk : ∀ (rows : List Row) (n : Nat) (d : AccessIndex),
    (∀ r ∈ rows, rowOk r = true) →
    ∃ d', parseRowsFrom rows (n, d) = ((n + rows.length, d'), none)
  | [], n, d, _ => ⟨d, by simp [parseRowsFrom]⟩
  | r :: rs, n, d, h => by
    have hr : rowOk r = true := h r (by simp)
    have h0 : cellOk (r[0]?) = true := by
      have := hr
      simp [rowOk, Bool.and_eq_true] at this
      exact this.1
    have h3 : cellOk (r[3]?) = true := by
      have := hr
      simp [rowOk, Bool.and_eq_true] at this
      exact this.2
    have hstep := parseRowStep_ok_of_cellsOk n d r h0 h3
    obtain ⟨d', hd'⟩ := parseRowsFrom_allOk rs (n + 1)
      (addAccess d (trimVal (r[0]?)) (trimVal (r[3]?)))
      (fun r' hr' => h r' (by simp [hr']))
    refine ⟨d', ?_⟩
    simp only [parseRowsFrom, hstep, List.length_cons]
    rw [show n + (rs.length + 1) = n + 1 + rs.length from by omega]
    exact hd'

lemma parseRowStep_err_of_bad (st : Nat × AccessIndex) (row : Row)
    (h : badCell row = true) : ∃ e, parseRowStep st row = Except.error e := by
  simp only [badCell, Bool.or_eq_true, decide_eq_true_eq] at h
  rcases h with h0 | h3
  · cases hg3 : row[3]? with
    | none =>
      exact ⟨PyError.indexError, by simp [parseRowStep, getCell, h0, hg3]⟩
    | some c3 =>
      exact ⟨PyError.attributeError,
        by simp [parseRowStep, getCell, h0, hg3, noneToEmpty, pyStrip]⟩
  · have hlen : 3 < row.length := (List.getElem?_eq_some_iff.mp h3).1
    have h0s : ∃ c0, row[0]? = some c0 := by
      cases hg0 : row[0]? with
      | none =>
        have := List.getElem?_eq_none_iff.mp hg0
        omega
      | some c0 => exact ⟨c0, rfl⟩
    obtain ⟨c0, hg0⟩ := h0s
    cases c0 <;>
      exact ⟨PyError.attributeError,
        by simp [parseRowStep, getCell, hg0, h3, noneToEmpty, pyStrip]⟩

lemma parseRowsFrom_err : ∀ (rows : List Row) (st : Nat × AccessIndex),
    (∃ r ∈ rows, badCell r = true) →
    ∃ st' e, parseRowsFrom rows st = (st', some e)
  | [], _, h => by simp at h
  | r :: rs, st, h => by
    cases hstep : parseRowStep st r with
    | error e => exact ⟨st, e, by simp only [parseRowsFrom, hstep]⟩
    | ok st1 =>
      have hr : ¬badCell r = true := by
        intro hb
        obtain ⟨e, he⟩ := parseRowStep_err_of_bad st r hb
        rw [hstep] at he
        cases he
      have htl : ∃ r' ∈ rs, badCell r' = true := by
        rcases h with ⟨r', hmem, hbad⟩
        rcases List.mem_cons.mp hmem with rfl | hmem'
        · exact absurd hbad hr
        · exact ⟨r', hmem', hbad⟩
      obtain ⟨st', e, h'⟩ := parseRowsFrom_err rs st1 htl
      exact ⟨st', e, by simp only [parseRowsFrom, hstep]; exact h'⟩

/-! ### Claim theorems -/

/-- C1: for a workbook whose sheet `Sheet1` has a header row followed by the
three data rows `("1.2.3.4","","","api")`, `("1.2.3.4","","","web")`,
`("5.6.7.8","","","api")`, aggregation returns row count 3, reports 2 distinct
IP keys, and builds the AccessIndex mapping `"1.2.3.4"` to `["api","web"]` and
`"5.6.7.8"` to `["api"]`, methods appended per key in row order. -/
theorem scenarioA_aggregation :
    run_aggregation scenarioASheet =
      ((3, [("1.2.3.4", ["api", "web"]), ("5.6.7.8", ["api"])]), none) ∧
    (run_aggregation scenarioASheet).1.2.length = 2 := by
  decide

/-- C2: whenever aggregation over a sheet succeeds from an empty index, the
number of distinct keys of the resulting AccessIndex is at most the number of
rows processed, and the per-key method-list lengths sum to exactly that number
(every data row contributes one entry to exactly one list; the keys are
pairwise distinct, so the entry count is the distinct-key count). -/
theorem accessIndex_partition_invariant (ws : Sheet) (n : Nat)
    (d : AccessIndex) (h : run_aggregation ws = ((n, d), none)) :
    d.length ≤ n ∧ sumLen d = n ∧ (d.map Prod.fst).Nodup := by
  have h' : parseRowsFrom (ws.rows.drop 1) (0, []) = ((n, d), none) := h
  obtain ⟨h1, h2, h3, h4⟩ :=
    parseRowsFrom_ok_inv (ws.rows.drop 1) 0 [] n d h'
  have hs : sumLen ([] : AccessIndex) = 0 := by simp [sumLen]
  rw [hs] at h3
  simp only [List.length_nil, Nat.zero_add] at h1 h2 h3
  exact ⟨by omega, by omega, h4 (by simp)⟩

/-- C2 witness: the invariant holds at the Scenario A sheet. -/
theorem accessIndex_partition_invariant_witness :
    ([("1.2.3.4", ["api", "web"]), ("5.6.7.8", ["api"])] : AccessIndex).length
        ≤ 3 ∧
    sumLen [("1.2.3.4", ["api", "web"]), ("5.6.7.8", ["api"])] = 3 ∧
    (([("1.2.3.4", ["api", "web"]), ("5.6.7.8", ["api"])] :
        AccessIndex).map Prod.fst).Nodup :=
  accessIndex_partition_invariant scenarioASheet 3
    [("1.2.3.4", ["api", "web"]), ("5.6.7.8", ["api"])] (by decide)

/-- C3: for a sheet with one header row followed by data rows whose consumed
cells are text or empty (the LogRow data model), aggregation never inspects the
header (replacing it by any other row leaves the outcome unchanged), raises
nothing, and returns a row count equal to the number of data rows, regardless
of the contents of the cells, including fully empty IP and method cells. -/
theorem header_skipped_row_count (nm : String) (hdr1 hdr2 : Row)
    (dataRows : List Row) (d0 : AccessIndex)
    (hok : ∀ r ∈ dataRows, rowOk r = true) :
    parse_ip_accesses_logs ⟨nm, hdr1 :: dataRows⟩ d0 =
      parse_ip_accesses_logs ⟨nm, hdr2 :: dataRows⟩ d0 ∧
    (parse_ip_accesses_logs ⟨nm, hdr1 :: dataRows⟩ d0).1.1 =
      dataRows.length ∧
    (parse_ip_accesses_logs ⟨nm, hdr1 :: dataRows⟩ d0).2 = none := by
  obtain ⟨d', hd'⟩ := parseRowsFrom_allOk dataRows 0 d0 hok
  have he : parse_ip_accesses_logs ⟨nm, hdr1 :: dataRows⟩ d0 =
      ((0 + dataRows.length, d'), none) := hd'
  refine ⟨rfl, ?_, ?_⟩
  · rw [he]
    simp
  · rw [he]

/-- C3 witness: a junk header next to an empty-celled data row. -/
theorem header_skipped_row_count_witness :
    parse_ip_accesses_logs ⟨"Sheet1", [CellValue.vOther] ::
        [[CellValue.vNone, CellValue.vNone, CellValue.vNone,
          CellValue.vNone]]⟩ [] =
      parse_ip_accesses_logs ⟨"Sheet1", ([] : Row) ::
        [[CellValue.vNone, CellValue.vNone, CellValue.vNone,
          CellValue.vNone]]⟩ [] ∧
    (parse_ip_accesses_logs ⟨"Sheet1", [CellValue.vOther] ::
        [[CellValue.vNone, CellValue.vNone, CellValue.vNone,
          CellValue.vNone]]⟩ []).1.1 = 1 ∧
    (parse_ip_accesses_logs ⟨"Sheet1", [CellValue.vOther] ::
        [[CellValue.vNone, CellValue.vNone, CellValue.vNone,
          CellValue.vNone]]⟩ []).2 = none :=
  header_skipped_row_count "Sheet1" [CellValue.vOther] []
    [[CellValue.vNone, CellValue.vNone, CellValue.vNone, CellValue.vNone]]
    [] (by decide)

/-- C4: for every data row whose consumed cells exist in the (padded) row, an
absent (`None`) cell at column index 0 or 3 is treated as the empty string
rather than an error, both values are whitespace-trimmed before use, and a row
whose IP cell and method cell are both absent is still counted and extends the
key `""` with the value `""`. -/
theorem absent_cell_empty_string (n : Nat) (d : AccessIndex) (row : Row)
    (h0 : cellOk row[0]? = true) (h3 : cellOk row[3]? = true) :
    parseRowStep (n, d) row =
      Except.ok (n + 1, addAccess d (trimVal row[0]?) (trimVal row[3]?)) ∧
    (row[0]? = some CellValue.vNone → row[3]? = some CellValue.vNone →
      parseRowStep (n, d) row = Except.ok (n + 1, addAccess d "" "")) := by
  refine ⟨parseRowStep_ok_of_cellsOk n d row h0 h3, ?_⟩
  intro e0 e3
  have hstep := parseRowStep_ok_of_cellsOk n d row h0 h3
  rw [e0, e3] at hstep
  simpa [trimVal] using hstep

/-- C4 witness: a fully empty data row is counted under key `""`. -/
theorem absent_cell_empty_string_witness :
    parseRowStep (0, ([] : AccessIndex))
        [CellValue.vNone, CellValue.vNone, CellValue.vNone, CellValue.vNone] =
      Except.ok (1, addAccess []
        (trimVal [CellValue.vNone, CellValue.vNone, CellValue.vNone,
          CellValue.vNone][0]?)
        (trimVal [CellValue.vNone, CellValue.vNone, CellValue.vNone,
          CellValue.vNone][3]?)) ∧
    ([CellValue.vNone, CellValue.vNone, CellValue.vNone,
        CellValue.vNone][0]? = some CellValue.vNone →
      [CellValue.vNone, CellValue.vNone, CellValue.vNone,
        CellValue.vNone][3]? = some CellValue.vNone →
      parseRowStep (0, ([] : AccessIndex))
          [CellValue.vNone, CellValue.vNone, CellValue.vNone,
            CellValue.vNone] =
        Except.ok (1, addAccess [] "" "")) :=
  absent_cell_empty_string 0 []
    [CellValue.vNone, CellValue.vNone, CellValue.vNone, CellValue.vNone]
    (by decide) (by decide)

/-- C5: file validation returns true exactly when the path exists and its
suffix is in the configured allow-list; otherwise it returns false, emits a
diagnostic, and `main` exits 1 without ever invoking `process_file`, so no
aggregation occurs. -/
theorem validate_file_gates_processing (f : FileInfo)
    (load : Except PyError Workbook) :
    ((validate_file f).1 = true ↔
      (f.pathExists = true ∧ f.suffix ∈ allowedSuffixes)) ∧
    ((validate_file f).1 = false →
      (validate_file f).2 ≠ [] ∧ main_run f load = (1, none)) := by
  constructor
  · unfold validate_file
    by_cases he : f.pathExists = true <;>
      by_cases hs : f.suffix ∈ allowedSuffixes <;>
        simp [he, hs]
  · intro hfail
    refine ⟨?_, ?_⟩
    · unfold validate_file at hfail ⊢
      by_cases he : f.pathExists = true <;>
        by_cases hs : f.suffix ∈ allowedSuffixes <;>
          simp [he, hs] at hfail ⊢
    · unfold main_run
      rw [hfail]
      simp

/-- C5 witness: an existing `.csv` file is rejected with a diagnostic and
`main` exits 1 without processing. -/
theorem validate_file_gates_processing_witness :
    (validate_file ⟨"log.csv", true, ".csv"⟩).2 ≠ [] ∧
    main_run ⟨"log.csv", true, ".csv"⟩ (Except.ok ⟨[]⟩) = (1, none) :=
  (validate_file_gates_processing ⟨"log.csv", true, ".csv"⟩
    (Except.ok ⟨[]⟩)).2 (by decide)

/-- C6: for every workbook and every requested sheet name absent from it,
`process_file` reports sheet-not-found and returns with the AccessIndex
unchanged (in particular still empty) and no rows processed, without raising;
and since the caught path never reaches `main`, the process still exits 0
whenever validation passed. -/
theorem sheet_not_found_aborts (wb : Workbook) (nm : String) (d0 : AccessIndex)
    (f : FileInfo) (hnm : nm ∉ sheetnames wb) (hne : nm ≠ "") :
    process_file (Except.ok wb) (some nm) d0 =
      (ProcessResult.sheetNotFound, d0) ∧
    ((validate_file f).1 = true → (main_run f (Except.ok wb)).1 = 0) := by
  have hfind : findSheet wb nm = none := by
    rw [findSheet, List.find?_eq_none]
    intro s hs
    simp only [decide_eq_true_eq]
    intro hname
    exact hnm (by rw [sheetnames]; exact List.mem_map.mpr ⟨s, hs, hname⟩)
  constructor
  · simp [process_file, hne, hfind]
  · intro hv
    unfold main_run
    rw [hv]
    simp

/-- C6 witness: requesting `Sheet2` when only `Sheet1` exists. -/
theorem sheet_not_found_aborts_witness :
    process_file (Except.ok ⟨[⟨"Sheet1", []⟩]⟩) (some "Sheet2") [] =
      (ProcessResult.sheetNotFound, []) ∧
    ((validate_file ⟨"a.xlsx", true, ".xlsx"⟩).1 = true →
      (main_run ⟨"a.xlsx", true, ".xlsx"⟩
        (Except.ok ⟨[⟨"Sheet1", []⟩]⟩)).1 = 0) :=
  sheet_not_found_aborts ⟨[⟨"Sheet1", []⟩]⟩ "Sheet2" []
    ⟨"a.xlsx", true, ".xlsx"⟩ (by decide) (by decide)

/-- C7: the process exits 1 exactly when file validation fails; in every other
case, including a failed workbook load or an exception inside aggregation, the
exception is caught inside `process_file` and only reported, so the exit code
is 0 and does not distinguish a parse failure from success. -/
theorem exit_code_iff_validation_failure (f : FileInfo)
    (load : Except PyError Workbook) :
    (main_run f load).1 = (if (validate_file f).1 then 0 else 1) ∧
    ((main_run f load).1 = 1 ↔ (validate_file f).1 = false) := by
  unfold main_run
  by_cases hv : (validate_file f).1 = true
  · simp [hv]
  · simp only [Bool.not_eq_true] at hv
    simp [hv]

/-- C8: aggregation is deterministic; two invocations, each starting from the
freshly emptied index, over sheets with the same static row content produce an
identical AccessIndex, the same ordered method lists, and an identical
distinct-key count. -/
theorem aggregation_deterministic (ws1 ws2 : Sheet) (h : ws1.rows = ws2.rows) :
    run_aggregation ws1 = run_aggregation ws2 ∧
    (run_aggregation ws1).1.2.length = (run_aggregation ws2).1.2.length := by
  have he : run_aggregation ws1 = run_aggregation ws2 := by
    unfold run_aggregation parse_ip_accesses_logs
    rw [h]
  exact ⟨he, by rw [he]⟩

/-- C8 witness: two runs over the Scenario A rows coincide. -/
theorem aggregation_deterministic_witness :
    run_aggregation scenarioASheet = run_aggregation scenarioASheet ∧
    (run_aggregation scenarioASheet).1.2.length =
      (run_aggregation scenarioASheet).1.2.length :=
  aggregation_deterministic scenarioASheet scenarioASheet (by decide)

/-- C9: for an existing file, the extension check is an exact case-sensitive
string match against `[".xlsx", ".xls", ".xlsm"]`; any other spelling of the
suffix, including the uppercase `".XLSX"`, makes validation return false. -/
theorem suffix_match_case_sensitive (f : FileInfo)
    (hex : f.pathExists = true) :
    ((validate_file f).1 = true ↔
      f.suffix ∈ [".xlsx", ".xls", ".xlsm"]) ∧
    (f.suffix = ".XLSX" → (validate_file f).1 = false) := by
  constructor
  · have hval : (validate_file f).1 = true ↔ f.suffix ∈ allowedSuffixes := by
      unfold validate_file
      by_cases hs : f.suffix ∈ allowedSuffixes
      · simp [hex, hs]
      · simp [hex, hs]
    rw [allowedSuffixes] at hval
    exact hval
  · intro hup
    unfold validate_file
    rw [hup]
    simp [hex, allowedSuffixes]

/-- C9 witness: an existing file whose suffix is `".XLSX"` is rejected. -/
theorem suffix_match_case_sensitive_witness :
    ((validate_file ⟨"a.XLSX", true, ".XLSX"⟩).1 = true ↔
      (".XLSX" : String) ∈ [".xlsx", ".xls", ".xlsm"]) ∧
    ((".XLSX" : String) = ".XLSX" →
      (validate_file ⟨"a.XLSX", true, ".XLSX"⟩).1 = false) :=
  suffix_match_case_sensitive ⟨"a.XLSX", true, ".XLSX"⟩ (by decide)

/-- C10: the empty-string fallback applies only to `None` cells: a data row
holding a present non-string value at column index 0 or 3 makes the strip step
raise, so the loop returns no count, and at the `process_file` level the
exception lands in the generic catch clause: the outcome is the error report,
not the row-count and IP summary report. -/
theorem nonstring_cell_raises :
    (∀ (st : Nat × AccessIndex) (row : Row), badCell row = true →
      ∃ e, parseRowStep st row = Except.error e) ∧
    (∀ (wb : Workbook) (nm : String) (ws : Sheet) (d0 : AccessIndex),
      nm ≠ "" → findSheet wb nm = some ws →
      (∃ r ∈ ws.rows.drop 1, badCell r = true) →
      (process_file (Except.ok wb) (some nm) d0).1 =
        ProcessResult.errorCaught) := by
  constructor
  · exact parseRowStep_err_of_bad
  · intro wb nm ws d0 hne hfind hbad
    obtain ⟨st', e, herr⟩ := parseRowsFrom_err (ws.rows.drop 1) (0, d0) hbad
    obtain ⟨n1, d1⟩ := st'
    have hpe : parse_ip_accesses_logs ws d0 = ((n1, d1), some e) := herr
    simp [process_file, hne, hfind, hpe]

/-- C10 witness: a numeric IP cell aborts the parse and the file-level
outcome is the caught error, not a summary. -/
theorem nonstring_cell_raises_witness :
    (∃ e, parseRowStep (0, ([] : AccessIndex))
      [CellValue.vOther, CellValue.vNone, CellValue.vNone,
        CellValue.vStr "api"] = Except.error e) ∧
    (process_file (Except.ok ⟨[⟨"Sheet1",
        [[CellValue.vStr "header"], [CellValue.vOther, CellValue.vNone,
          CellValue.vNone, CellValue.vStr "api"]]⟩]⟩) (some "Sheet1") []).1 =
      ProcessResult.errorCaught :=
  ⟨nonstring_cell_raises.1 (0, [])
      [CellValue.vOther, CellValue.vNone, CellValue.vNone,
        CellValue.vStr "api"] (by decide),
   nonstring_cell_raises.2 ⟨[⟨"Sheet1",
        [[CellValue.vStr "header"], [CellValue.vOther, CellValue.vNone,
          CellValue.vNone, CellValue.vStr "api"]]⟩]⟩ "Sheet1"
      ⟨"Sheet1", [[CellValue.vStr "header"], [CellValue.vOther,
        CellValue.vNone, CellValue.vNone, CellValue.vStr "api"]]⟩ []
      (by decide) (by decide) (by decide)⟩
